import Mathlib

/-!
# Verification of the Forum DynamoDB facade (src/Forum.py)

Shallow embedding of the `Forum` class: a thin facade over an Amazon DynamoDB
table.  DynamoDB itself is an external collaborator reached through its
documented request/response contract; we model that contract explicitly
(a table is a list of items with a unique `Name` partition key, a paginated
scan is a list of pages, a fallible client call is an `Except` value) and
translate each method of the class, including its try/except control flow,
its logging, and its member-variable updates.
-/

/-- A DynamoDB attribute value as used by this table: strings and numbers
(the table stores a category string and three nonnegative counts). -/
inductive AttrVal
  | s (v : String)
  | n (v : Nat)
deriving DecidableEq, Repr

/-- A DynamoDB item: an attribute map, modelled as an association list. -/
abbrev Item := List (String × AttrVal)

/-- Look up attribute `k` of an item. -/
def getAttr (it : Item) (k : String) : Option AttrVal :=
  (it.find? (fun p => p.1 == k)).map (·.2)

/-- The partition-key attribute of an item (`Name`, per the table schema
declared in `create_table`). -/
def itemKey (it : Item) : Option AttrVal :=
  getAttr it "Name"

/-- DynamoDB PutItem on the stored items: replaces the item with the same
partition key, or inserts the item when no key matches (unconditional put). -/
def putItemModel : List Item → Item → List Item
  | [], it => [it]
  | j :: js, it => if itemKey j == itemKey it then it :: js else j :: putItemModel js it

/-- DynamoDB GetItem on the stored items: the `Item` member of the response,
present exactly when an item with partition key `name` exists. -/
def getItemModel (items : List Item) (name : String) : Option Item :=
  items.find? (fun j => itemKey j == some (AttrVal.s name))

/-- DynamoDB DeleteItem on the stored items: removes the item with partition
key `name`; succeeds whether or not such an item exists. -/
def deleteItemModel (items : List Item) (name : String) : List Item :=
  items.filter (fun j => !(itemKey j == some (AttrVal.s name)))

/-- Set one attribute of an item: overwrite the entry with name `k` when
present (attribute names are unique within an item), append otherwise. -/
def setAttr : Item → String → AttrVal → Item
  | [], k, v => [(k, v)]
  | p :: ps, k, v => if p.1 == k then (k, v) :: ps else p :: setAttr ps k v

/-- Apply a list of attribute assignments left to right (the SET clauses of an
update expression). -/
def setAttrs (it : Item) (kvs : List (String × AttrVal)) : Item :=
  kvs.foldl (fun a kv => setAttr a kv.1 kv.2) it

/-- DynamoDB UpdateItem for `update_forum`'s request: key `Name = name`,
update expression `set Category=:c, Messages=:m, Threads=:t, #Views=:v`,
`ReturnValues="UPDATED_NEW"`.  When no item has the key, UpdateItem creates
one (upsert).  The second component is the response's `Attributes` member:
with `UPDATED_NEW`, the new values of exactly the attributes named in the
update expression. -/
def updateItemModel (items : List Item) (name : String) (c m t v : AttrVal) :
    List Item × Item :=
  let newAttrs : Item := [("Category", c), ("Messages", m), ("Threads", t), ("Views", v)]
  let base : Item :=
    match getItemModel items name with
    | some it => it
    | none => [("Name", AttrVal.s name)]
  (putItemModel items (setAttrs base newAttrs), newAttrs)

/-- A fault surfaced by the service client (`botocore.exceptions.ClientError`,
reduced to the `Error.Code` / `Error.Message` pair the script reads). -/
structure ClientErr where
  code : String
  message : String
deriving DecidableEq, Repr

/-- A Python-level error escaping a `Forum` method: either a re-raised client
error or a `KeyError` from indexing a response dict. -/
inductive PyErr
  | client (e : ClientErr)
  | keyError (key : String)
  | fileNotFound
  | jsonDecodeError
deriving DecidableEq, Repr

/-- A structured diagnostic emitted by `logger.error` before a re-raise:
operation, target name (empty when the format string names none), error code,
error message. -/
structure LogEntry where
  op : String
  target : String
  code : String
  msg : String
deriving DecidableEq, Repr

/-- `Forum.get_forum`, given the client's response to
`table.get_item(Key={'Name': name})`: a `ClientError` is logged and re-raised;
otherwise the method returns `response['Item']`, which raises `KeyError` when
the response carries no `Item` member (missing key). -/
def get_forumCore (name : String) (resp : Except ClientErr (Option Item)) :
    Except PyErr Item × List LogEntry :=
  match resp with
  | .error e => (.error (.client e), [⟨"get_forum", name, e.code, e.message⟩])
  | .ok (some it) => (.ok it, [])
  | .ok none => (.error (.keyError "Item"), [])

/-- `Forum.get_forum` against the table model with a fault-free client. -/
def get_forum (items : List Item) (name : String) : Except PyErr Item :=
  (get_forumCore name (.ok (getItemModel items name))).1

/-- `Forum.add_forum`, given the client's response to `table.put_item`. -/
def add_forumCore (name : String) (resp : Except ClientErr Unit) :
    Except ClientErr Unit × List LogEntry :=
  match resp with
  | .error e => (.error e, [⟨"add_forum", name, e.code, e.message⟩])
  | .ok _ => (.ok (), [])

/-- `Forum.add_forum` against the table model with a fault-free client:
puts the item `{Name, Category, Messages, Threads, Views}`. -/
def add_forum (items : List Item) (name : String)
    (category messages threads views : AttrVal) : List Item :=
  putItemModel items
    [("Name", AttrVal.s name), ("Category", category), ("Messages", messages),
     ("Threads", threads), ("Views", views)]

/-- `Forum.update_forum`, given the client's response to `table.update_item`:
a `ClientError` is logged and re-raised; otherwise the method returns
`response['Attributes']`. -/
def update_forumCore (name : String) (resp : Except ClientErr Item) :
    Except ClientErr Item × List LogEntry :=
  match resp with
  | .error e => (.error e, [⟨"update_forum", name, e.code, e.message⟩])
  | .ok attrs => (.ok attrs, [])

/-- `Forum.update_forum` against the table model with a fault-free client:
the new stored items and the returned `Attributes`. -/
def update_forum (items : List Item) (name : String) (c m t v : AttrVal) :
    List Item × Item :=
  updateItemModel items name c m t v

/-- The client's response to `table.delete_item(Key={'Name': name})`:
DynamoDB DeleteItem succeeds whether or not an item with the key exists. -/
def deleteItemResp (_items : List Item) (_name : String) : Except ClientErr Unit :=
  .ok ()

/-- `Forum.delete_forum`, given the client's response to `table.delete_item`. -/
def delete_forumCore (name : String) (resp : Except ClientErr Unit) :
    Except ClientErr Unit × List LogEntry :=
  match resp with
  | .error e => (.error e, [⟨"delete_forum", name, e.code, e.message⟩])
  | .ok _ => (.ok (), [])

/-- `Forum.delete_forum` against the table model with a fault-free client. -/
def delete_forum (items : List Item) (name : String) : List Item :=
  deleteItemModel items name

/-- `Forum.exists`, given the prior cached handle `st` and the client's
response to `table.load()` on the handle for `table_name`.  A
`ResourceNotFoundException` yields `False` without logging or raising; any
other `ClientError` is logged and re-raised; on success the method stores the
handle in `self.table` (the `else:` branch) and returns `True`.  The result is
(return value, new cached handle, log entries). -/
def existsCore (st : Option String) (table_name : String)
    (resp : Except ClientErr Unit) :
    Except ClientErr Bool × Option String × List LogEntry :=
  match resp with
  | .ok _ => (.ok true, some table_name, [])
  | .error e =>
    if e.code == "ResourceNotFoundException" then (.ok false, st, [])
    else (.error e, st, [⟨"exists", table_name, e.code, e.message⟩])

/-- `Forum.create_table`, given the client's response to
`dyn_resource.create_table(...)` followed by `wait_until_exists()` (modelled
as one call): on success the new handle is stored and returned; a
`ClientError` is logged and re-raised with the handle unchanged. -/
def create_tableCore (st : Option String) (table_name : String)
    (resp : Except ClientErr Unit) :
    Except ClientErr String × Option String × List LogEntry :=
  match resp with
  | .ok _ => (.ok table_name, some table_name, [])
  | .error e => (.error e, st, [⟨"create_table", table_name, e.code, e.message⟩])

/-- `Forum.write_batch`, given the client's outcome of the
`Table.batch_writer()` block that puts every record (the batching facility
chunks, buffers and retries internally): a `ClientError` is logged and
re-raised. -/
def write_batchCore (table_name : String) (resp : Except ClientErr Unit) :
    Except ClientErr Unit × List LogEntry :=
  match resp with
  | .error e => (.error e, [⟨"write_batch", table_name, e.code, e.message⟩])
  | .ok _ => (.ok (), [])

/-- `Forum.write_batch` against the table model with a fault-free client:
each record is put in order via the batching facility. -/
def write_batch (items : List Item) (forums : List Item) : List Item :=
  forums.foldl putItemModel items

/-- `Forum.delete_table`, given the cached handle `t` (the drop is issued
against `self.table`) and the client's response to `table.delete()`: on
success `self.table` is set to `None`; a `ClientError` is logged (the format
string names no table) and re-raised with the handle unchanged. -/
def delete_tableCore (t : String) (resp : Except ClientErr Unit) :
    Except ClientErr Unit × Option String × List LogEntry :=
  match resp with
  | .ok _ => (.ok (), none, [])
  | .error e => (.error e, some t, [⟨"delete_table", "", e.code, e.message⟩])

/-- `Forum.scan_forums`'s while-loop, against a service whose table contents
are split into the page list `pages`: a request carrying no
`ExclusiveStartKey` reads page 0, and a response for page `k` carries
`LastEvaluatedKey` `k+1` exactly when a further page exists.  `fault k`
injects the client fault, if any, for the request that reads page `k`; a
fault is logged (the format string names no table) and re-raised.  The result
is (accumulated records, the `ExclusiveStartKey` of every request issued, log
entries). -/
def scanCore (pages : List (List Item)) (fault : Nat → Option ClientErr)
    (start_key : Option Nat) (forums : List Item) (reqs : List (Option Nat)) :
    Except ClientErr (List Item) × List (Option Nat) × List LogEntry :=
  let k := start_key.getD 0
  match fault k with
  | some e => (.error e, reqs ++ [start_key], [⟨"scan_forums", "", e.code, e.message⟩])
  | none =>
    let page := pages.getD k []
    if _h : k + 1 < pages.length then
      scanCore pages fault (some (k + 1)) (forums ++ page) (reqs ++ [start_key])
    else
      (.ok (forums ++ page), reqs ++ [start_key], [])
termination_by pages.length - start_key.getD 0
decreasing_by simp_wf; omega

/-- `Forum.scan_forums` against the page model with a fault-free client:
start with no `ExclusiveStartKey`, accumulate `response['Items']` of every
page, re-issue with each returned `LastEvaluatedKey`, stop when a response
carries none. -/
def scan_forums (pages : List (List Item)) :
    Except ClientErr (List Item) × List (Option Nat) × List LogEntry :=
  scanCore pages (fun _ => none) none [] []

/-!
## The sample-data file and `json.load(forum_file, parse_float=Decimal)`

`get_sample_forum_data` reads a JSON document — an array of flat objects,
each mapping field names to string or numeric scalars — and decodes it with
`parse_float=Decimal`, so a numeric literal with a fraction part becomes an
exact `Decimal` and an integer literal becomes an arbitrary-precision `int`.
We model the raw document with its numeric literals kept as character lists,
and the decoding literal by literal.  (The repository's sample data uses
nonnegative plain literals, so signs and exponent notation are not
modelled.) -/

/-- A raw JSON scalar as written in the sample-data file. -/
inductive RawScalar
  | str (s : String)
  | num (lit : List Char)
deriving DecidableEq, Repr

/-- A raw JSON object of the sample-data array. -/
abbrev RawRecord := List (String × RawScalar)

/-- A decoded Python scalar: `str`, exact `int`, or exact
`Decimal mant × 10 ^ (- exp)`. -/
inductive PyScalar
  | str (s : String)
  | int (n : Nat)
  | dec (mant exp : Nat)
deriving DecidableEq, Repr

/-- A decoded record (Python dict). -/
abbrev PyRecord := List (String × PyScalar)

def isDigit (c : Char) : Bool :=
  48 ≤ c.toNat && c.toNat ≤ 57

def digitVal (c : Char) : Nat :=
  c.toNat - 48

/-- Accumulate the decimal digits of a literal; any non-digit rejects it. -/
def parseNatAux : List Char → Nat → Option Nat
  | [], acc => some acc
  | c :: cs, acc =>
    if isDigit c then parseNatAux cs (10 * acc + digitVal c) else none

/-- Decode a nonempty digit string as an exact natural number. -/
def parseNatLit (cs : List Char) : Option Nat :=
  if cs.isEmpty then none else parseNatAux cs 0

/-- Split a literal at its first dot, when it has one. -/
def splitDot : List Char → List Char × Option (List Char)
  | [] => ([], none)
  | c :: cs =>
    if c = '.' then ([], some cs)
    else
      let r := splitDot cs
      (c :: r.1, r.2)

/-- Decode one numeric literal the way `json.load(·, parse_float=Decimal)`
does: a literal without a dot is an `int` (exact), a literal `a.b` is the
exact `Decimal` with mantissa `a·10^|b| + b` and scale `|b|`. -/
def decodeNumLit (lit : List Char) : Option PyScalar :=
  match splitDot lit with
  | (intPart, none) => (parseNatLit intPart).map PyScalar.int
  | (intPart, some fracPart) =>
    if fracPart.contains '.' then none
    else
      match parseNatLit intPart, parseNatLit fracPart with
      | some i, some f => some (.dec (i * 10 ^ fracPart.length + f) fracPart.length)
      | _, _ => none

/-- Decode one raw scalar. -/
def decodeScalar : RawScalar → Option PyScalar
  | .str s => some (.str s)
  | .num lit => decodeNumLit lit

/-- Decode a list elementwise, rejecting the whole list on any failure. -/
def decodeAll (f : α → Option β) : List α → Option (List β)
  | [] => some []
  | a :: as =>
    match f a, decodeAll f as with
    | some b, some bs => some (b :: bs)
    | _, _ => none

/-- Decode one raw object field by field. -/
def decodeRecord (r : RawRecord) : Option PyRecord :=
  decodeAll (fun kv => (decodeScalar kv.2).map (fun v => (kv.1, v))) r

/-- `json.load` of the sample-data array with `parse_float=Decimal`. -/
def json_load (doc : List RawRecord) : Option (List PyRecord) :=
  decodeAll decodeRecord doc

/-- `Forum.get_sample_forum_data`, given the file's contents (`none` when the
file is absent): a `FileNotFoundError` is printed and re-raised; otherwise the
decoded document is returned as-is. -/
def get_sample_forum_data (file : Option (List RawRecord)) :
    Except PyErr (List PyRecord) :=
  match file with
  | none => .error .fileNotFound
  | some doc =>
    match json_load doc with
    | some recs => .ok recs
    | none => .error .jsonDecodeError

/-- The decimal rendering of a natural number, by fuel-guarded recursion so
that it reduces definitionally. -/
def renderNatAux : Nat → Nat → List Char
  | 0, _ => []
  | fuel + 1, n =>
    if n < 10 then [Char.ofNat (48 + n)]
    else renderNatAux fuel (n / 10) ++ [Char.ofNat (48 + n % 10)]

/-- The decimal literal of a natural number. -/
def renderNat (n : Nat) : List Char :=
  renderNatAux (n + 1) n

/-!
## Lemma kit for the table model
-/

theorem getAttr_cons (p : String × AttrVal) (ps : Item) (k : String) :
    getAttr (p :: ps) k = if p.1 == k then some p.2 else getAttr ps k := by
  by_cases h : p.1 == k <;> simp [getAttr, List.find?_cons, h]

theorem getAttr_setAttr (it : Item) (k k2 : String) (v : AttrVal) :
    getAttr (setAttr it k v) k2 = if k == k2 then some v else getAttr it k2 := by
  induction it with
  | nil =>
    by_cases h : k == k2 <;> simp [setAttr, getAttr_cons, getAttr, h]
  | cons p ps ih =>
    by_cases hp : p.1 == k
    · rw [setAttr, if_pos hp, getAttr_cons, getAttr_cons]
      by_cases h2 : k == k2
      · simp [h2]
      · have h3 : ¬ (p.1 == k2) := by
          simp only [beq_iff_eq] at hp h2 ⊢
          rw [hp]; exact h2
        simp [h2, h3]
    · rw [setAttr, if_neg (by simpa using hp), getAttr_cons, getAttr_cons, ih]
      by_cases h2 : k == k2
      · have h1 : ¬ (p.1 == k2) = true := by
          simp only [beq_iff_eq] at hp h2 ⊢
          rw [h2] at hp; exact hp
        simp [h1, h2]
      · simp [h2]

theorem getItemModel_cons (j : Item) (js : List Item) (name : String) :
    getItemModel (j :: js) name =
      if itemKey j == some (AttrVal.s name) then some j else getItemModel js name := by
  by_cases h : itemKey j == some (AttrVal.s name) <;>
    simp [getItemModel, List.find?_cons, h]

/-- After a put, a point lookup by the put item's key finds exactly that
item. -/
theorem getItemModel_put (items : List Item) (it : Item) (name : String)
    (h : itemKey it = some (AttrVal.s name)) :
    getItemModel (putItemModel items it) name = some it := by
  induction items with
  | nil => simp [putItemModel, getItemModel_cons, getItemModel, h]
  | cons j js ih =>
    by_cases hk : itemKey j == itemKey it
    · rw [putItemModel, if_pos hk, getItemModel_cons, if_pos (by simp [h])]
    · rw [putItemModel, if_neg (by simpa using hk), getItemModel_cons,
        if_neg (by simp only [beq_iff_eq] at *; rw [← h]; exact hk), ih]

/-- After a delete, a point lookup by the deleted key finds nothing. -/
theorem getItemModel_delete (items : List Item) (name : String) :
    getItemModel (deleteItemModel items name) name = none := by
  simp only [getItemModel, deleteItemModel, List.find?_eq_none, List.mem_filter]
  intro j hj
  simpa using hj.2

/-!
## Lemma kit for the scan loop
-/

/-- With a fault-free client the scan loop collects every page in order,
issues its first request with no `ExclusiveStartKey` and then one request per
returned `LastEvaluatedKey`, and stops with the first response that carries
none. -/
theorem scanCore_noFault (pages : List (List Item)) :
    ∀ fuel (sk : Option Nat) (acc : List Item) (tr : List (Option Nat)),
      pages.length - sk.getD 0 ≤ fuel →
      scanCore pages (fun _ => none) sk acc tr =
        (.ok (acc ++ (pages.drop (sk.getD 0)).flatten),
         tr ++ sk ::
           (List.range' (sk.getD 0 + 1) (pages.length - (sk.getD 0 + 1))).map some,
         []) := by
  intro fuel
  induction fuel with
  | zero =>
    intro sk acc tr hle
    have hk : pages.length ≤ sk.getD 0 := by omega
    rw [scanCore.eq_def]
    dsimp only
    rw [dif_neg (by omega)]
    rw [List.getD_eq_default _ _ hk, List.drop_eq_nil_of_le hk]
    have h0 : pages.length - (sk.getD 0 + 1) = 0 := by omega
    simp [h0]
  | succ f ih =>
    intro sk acc tr hle
    rw [scanCore.eq_def]
    dsimp only
    by_cases hlt : sk.getD 0 + 1 < pages.length
    · rw [dif_pos hlt]
      rw [ih (some (sk.getD 0 + 1)) (acc ++ pages.getD (sk.getD 0) [])
        (tr ++ [sk]) (by simp only [Option.getD_some]; omega)]
      simp only [Option.getD_some]
      have hk : sk.getD 0 < pages.length := by omega
      rw [List.getD_eq_getElem _ _ hk, List.drop_eq_getElem_cons hk]
      obtain ⟨m, hm⟩ : ∃ m, pages.length - (sk.getD 0 + 1) = m + 1 :=
        ⟨pages.length - (sk.getD 0 + 2), by omega⟩
      rw [hm, List.range'_succ]
      have hm2 : pages.length - (sk.getD 0 + 1 + 1) = m := by omega
      rw [hm2]
      simp
      rw [List.drop_eq_getElem_cons hk, List.flatten_cons]
    · rw [dif_neg hlt]
      have h0 : pages.length - (sk.getD 0 + 1) = 0 := by omega
      by_cases hk : sk.getD 0 < pages.length
      · rw [List.getD_eq_getElem _ _ hk, List.drop_eq_getElem_cons hk]
        have : pages.drop (sk.getD 0 + 1) = [] := List.drop_eq_nil_of_le (by omega)
        simp [this, h0]
      · rw [List.getD_eq_default _ _ (by omega), List.drop_eq_nil_of_le (by omega)]
        simp [h0]

/-!
## Lemma kit for the JSON model
-/

theorem parseNatAux_append (l1 l2 : List Char) (acc : Nat) :
    parseNatAux (l1 ++ l2) acc =
      match parseNatAux l1 acc with
      | some a => parseNatAux l2 a
      | none => none := by
  induction l1 generalizing acc with
  | nil => simp [parseNatAux]
  | cons c cs ih =>
    by_cases h : isDigit c <;> simp [parseNatAux, h, ih]

theorem digit_char_spec :
    ∀ d, d < 10 →
      isDigit (Char.ofNat (48 + d)) = true ∧ digitVal (Char.ofNat (48 + d)) = d := by
  decide

/-- The exact-precision round trip: parsing the decimal rendering of any
natural number recovers it exactly. -/
theorem parseNatAux_renderNatAux :
    ∀ fuel n, n < fuel → parseNatAux (renderNatAux fuel n) 0 = some n := by
  intro fuel
  induction fuel with
  | zero => intro n hn; omega
  | succ f ih =>
    intro n hn
    by_cases h10 : n < 10
    · simp [renderNatAux, h10, parseNatAux,
        (digit_char_spec n h10).1, (digit_char_spec n h10).2]
    · rw [renderNatAux, if_neg h10, parseNatAux_append]
      have hdiv : n / 10 < f := by
        have : n / 10 < n := Nat.div_lt_self (by omega) (by omega)
        omega
      rw [ih (n / 10) hdiv]
      have hm : n % 10 < 10 := Nat.mod_lt _ (by omega)
      simp [parseNatAux, (digit_char_spec _ hm).1, (digit_char_spec _ hm).2]
      omega

theorem renderNatAux_digits :
    ∀ fuel n c, c ∈ renderNatAux fuel n → isDigit c = true := by
  intro fuel
  induction fuel with
  | zero => intro n c hc; simp [renderNatAux] at hc
  | succ f ih =>
    intro n c hc
    by_cases h10 : n < 10
    · rw [renderNatAux, if_pos h10] at hc
      simp at hc
      rw [hc]
      exact (digit_char_spec n h10).1
    · rw [renderNatAux, if_neg h10] at hc
      rcases List.mem_append.mp hc with h | h
      · exact ih _ _ h
      · simp at h
        rw [h]
        exact (digit_char_spec _ (Nat.mod_lt _ (by omega))).1

theorem splitDot_of_no_dot (l : List Char) (h : ∀ c ∈ l, c ≠ '.') :
    splitDot l = (l, none) := by
  induction l with
  | nil => rfl
  | cons c cs ih =>
    rw [splitDot, if_neg (h c (by simp))]
    simp [ih (fun d hd => h d (by simp [hd]))]

theorem isDigit_ne_dot (c : Char) (h : isDigit c = true) : c ≠ '.' := by
  intro hc
  rw [hc] at h
  exact absurd h (by decide)

theorem renderNat_ne_nil (n : Nat) : renderNat n ≠ [] := by
  rw [renderNat, renderNatAux]
  by_cases h : n < 10 <;> simp [h]

/-- `json.load(·, parse_float=Decimal)` decodes the decimal literal of any
natural number back to exactly that number. -/
theorem decodeScalar_renderNat (n : Nat) :
    decodeScalar (.num (renderNat n)) = some (.int n) := by
  have hd : ∀ c ∈ renderNat n, c ≠ '.' :=
    fun c hc => isDigit_ne_dot c (renderNatAux_digits _ _ c hc)
  rw [decodeScalar, decodeNumLit, splitDot_of_no_dot _ hd]
  simp only [parseNatLit]
  rw [if_neg (by simp [renderNat_ne_nil n])]
  rw [renderNat, parseNatAux_renderNatAux (n + 1) n (by omega)]
  rfl

theorem decodeAll_length (f : α → Option β) :
    ∀ (l : List α) (res : List β), decodeAll f l = some res → res.length = l.length := by
  intro l
  induction l with
  | nil => intro res h; simp [decodeAll] at h; simp [← h]
  | cons a as ih =>
    intro res h
    rw [decodeAll] at h
    match hfa : f a, hrest : decodeAll f as with
    | some b, some bs =>
      rw [hfa, hrest] at h
      simp at h
      simp [← h, ih bs hrest]
    | some b, none => rw [hfa, hrest] at h; simp at h
    | none, _ => rw [hfa] at h; simp at h

/-!
## Lemma kit for update_forum
-/

theorem getAttr_setAttrs_four (it : Item) (c m t v : AttrVal) :
    getAttr (setAttrs it [("Category", c), ("Messages", m), ("Threads", t),
        ("Views", v)]) "Category" = some c ∧
    getAttr (setAttrs it [("Category", c), ("Messages", m), ("Threads", t),
        ("Views", v)]) "Messages" = some m ∧
    getAttr (setAttrs it [("Category", c), ("Messages", m), ("Threads", t),
        ("Views", v)]) "Threads" = some t ∧
    getAttr (setAttrs it [("Category", c), ("Messages", m), ("Threads", t),
        ("Views", v)]) "Views" = some v ∧
    getAttr (setAttrs it [("Category", c), ("Messages", m), ("Threads", t),
        ("Views", v)]) "Name" = getAttr it "Name" := by
  simp [setAttrs, getAttr_setAttr]

theorem itemKey_setAttrs_four (it : Item) (c m t v : AttrVal) :
    itemKey (setAttrs it [("Category", c), ("Messages", m), ("Threads", t),
      ("Views", v)]) = itemKey it := by
  simp [itemKey, setAttrs, getAttr_setAttr]

theorem updateBase_key (items : List Item) (name : String) :
    itemKey (match getItemModel items name with
      | some it => it
      | none => [("Name", AttrVal.s name)]) = some (AttrVal.s name) := by
  cases hgm : getItemModel items name with
  | none => simp [itemKey, getAttr_cons]
  | some it => simpa [itemKey] using List.find?_some hgm

/-!
## The claims
-/

/-- C1 counterexample: in the demo scenario (record "SQL server" added with
views 1000, then updated with views 2000), `update_forum` does not return
`{Views: 2000}`: its `UPDATED_NEW` response carries all four attributes named
in the update expression. -/
theorem update_forum_demo_not_only_views :
    (update_forum
        (add_forum [] "SQL server" (.s "Amazon Web Services") (.n 4) (.n 2) (.n 1000))
        "SQL server" (.s "Amazon Web Services") (.n 4) (.n 2) (.n 2000)).2 ≠
      [("Views", AttrVal.n 2000)] ∧
    (update_forum
        (add_forum [] "SQL server" (.s "Amazon Web Services") (.n 4) (.n 2) (.n 1000))
        "SQL server" (.s "Amazon Web Services") (.n 4) (.n 2) (.n 2000)).2 =
      [("Category", .s "Amazon Web Services"), ("Messages", .n 4),
        ("Threads", .n 2), ("Views", .n 2000)] :=
  ⟨by decide, rfl⟩

/-- C1 (amended): on an existing key, `update_forum` rewrites the fixed
attribute subset (Category, Messages, Threads, Views) and returns the new
values of exactly the fields named in the update expression — always all
four of them, not only those whose values differ and not the full record
(the key is not echoed back). -/
theorem update_forum_existing_key_updated_new (items : List Item) (name : String)
    (c m t v : AttrVal) (it : Item) (h : getItemModel items name = some it) :
    (update_forum items name c m t v).2 =
      [("Category", c), ("Messages", m), ("Threads", t), ("Views", v)] ∧
    getItemModel (update_forum items name c m t v).1 name =
      some (setAttrs it
        [("Category", c), ("Messages", m), ("Threads", t), ("Views", v)]) := by
  refine ⟨rfl, ?_⟩
  have hkey : itemKey it = some (AttrVal.s name) := by
    simpa using List.find?_some h
  simp only [update_forum, updateItemModel]
  rw [h]
  exact getItemModel_put _ _ _ (by rw [itemKey_setAttrs_four]; exact hkey)

/-- Witness for C1's amended theorem at the demo scenario. -/
theorem update_forum_existing_key_updated_new_w :
    getItemModel
        (add_forum [] "SQL server" (.s "Amazon Web Services") (.n 4) (.n 2) (.n 1000))
        "SQL server" =
      some [("Name", .s "SQL server"), ("Category", .s "Amazon Web Services"),
        ("Messages", .n 4), ("Threads", .n 2), ("Views", .n 1000)] ∧
    ((update_forum
        (add_forum [] "SQL server" (.s "Amazon Web Services") (.n 4) (.n 2) (.n 1000))
        "SQL server" (.s "Amazon Web Services") (.n 4) (.n 2) (.n 2000)).2 =
      [("Category", .s "Amazon Web Services"), ("Messages", .n 4),
        ("Threads", .n 2), ("Views", .n 2000)] ∧
    getItemModel (update_forum
        (add_forum [] "SQL server" (.s "Amazon Web Services") (.n 4) (.n 2) (.n 1000))
        "SQL server" (.s "Amazon Web Services") (.n 4) (.n 2) (.n 2000)).1 "SQL server" =
      some (setAttrs
        [("Name", .s "SQL server"), ("Category", .s "Amazon Web Services"),
          ("Messages", .n 4), ("Threads", .n 2), ("Views", .n 1000)]
        [("Category", .s "Amazon Web Services"), ("Messages", .n 4),
          ("Threads", .n 2), ("Views", .n 2000)])) :=
  ⟨rfl,
    update_forum_existing_key_updated_new
      (add_forum [] "SQL server" (.s "Amazon Web Services") (.n 4) (.n 2) (.n 1000))
      "SQL server" (.s "Amazon Web Services") (.n 4) (.n 2) (.n 2000)
      [("Name", .s "SQL server"), ("Category", .s "Amazon Web Services"),
        ("Messages", .n 4), ("Threads", .n 2), ("Views", .n 1000)] rfl⟩

/-- C10: on every call, `update_forum` writes all four non-key attributes
(Category, Messages, Threads, Views) regardless of which ones the caller
intended to change, and its successful return value contains exactly those
four fields bound to the supplied argument values. -/
theorem update_forum_writes_all_four (items : List Item) (name : String)
    (c m t v : AttrVal) :
    (update_forum items name c m t v).2 =
      [("Category", c), ("Messages", m), ("Threads", t), ("Views", v)] ∧
    ∃ it2,
      getItemModel (update_forum items name c m t v).1 name = some it2 ∧
      getAttr it2 "Category" = some c ∧ getAttr it2 "Messages" = some m ∧
      getAttr it2 "Threads" = some t ∧ getAttr it2 "Views" = some v ∧
      getAttr it2 "Name" = some (AttrVal.s name) := by
  refine ⟨rfl, ?_⟩
  have hb := updateBase_key items name
  simp only [update_forum, updateItemModel]
  refine ⟨_, getItemModel_put _ _ _ (by rw [itemKey_setAttrs_four]; exact hb), ?_⟩
  obtain ⟨h1, h2, h3, h4, h5⟩ := getAttr_setAttrs_four
    (match getItemModel items name with
      | some it => it
      | none => [("Name", AttrVal.s name)]) c m t v
  exact ⟨h1, h2, h3, h4, by rw [h5]; exact hb⟩

/-- C2 counterexample: `get_forum` on a key absent from the table does not
surface the absence in a returned value — indexing the Item-less response
raises a `KeyError`, i.e. the call fails with a raised error. -/
theorem get_forum_missing_key_raises :
    get_forum [] "Amazon DynamoDB" = .error (.keyError "Item") := rfl

/-- C2 (amended): on a missing key the service reports no distinct
"not found" error (no `ClientError` is raised and none is logged); the
response simply carries no `Item` member, and `get_forum`'s
`response['Item']` then raises a generic `KeyError` instead of returning an
empty result. -/
theorem get_forum_missing_key_behavior (items : List Item) (name : String)
    (h : getItemModel items name = none) :
    get_forum items name = .error (.keyError "Item") ∧
    (∀ e : ClientErr, get_forum items name ≠ .error (.client e)) ∧
    (∀ it : Item, get_forum items name ≠ .ok it) ∧
    (get_forumCore name (.ok (getItemModel items name))).2 = [] := by
  rw [get_forum, h]
  refine ⟨rfl, fun e he => ?_, fun it hit => ?_, rfl⟩
  · simp [get_forumCore] at he
  · simp [get_forumCore] at hit

/-- Witness for C2's amended theorem at the empty table. -/
theorem get_forum_missing_key_behavior_w :
    getItemModel [] "SQL server" = none ∧
    get_forum [] "SQL server" = .error (.keyError "Item") ∧
    get_forum [] "SQL server" ≠ .error (.client ⟨"InternalError", "boom"⟩) ∧
    get_forum [] "SQL server" ≠ .ok [] ∧
    (get_forumCore "SQL server" (.ok (getItemModel [] "SQL server"))).2 = [] :=
  ⟨rfl,
    (get_forum_missing_key_behavior [] "SQL server" rfl).1,
    (get_forum_missing_key_behavior [] "SQL server" rfl).2.1 _,
    (get_forum_missing_key_behavior [] "SQL server" rfl).2.2.1 _,
    (get_forum_missing_key_behavior [] "SQL server" rfl).2.2.2⟩

/-- C5: `delete_forum` is an unconditional delete that raises no error when
the key does not exist: the first delete succeeds on any table, afterwards a
point lookup carries no record (the response has no `Item` member, so
`get_forum` never yields a record), a repeated delete on the now-absent key
also succeeds, and it leaves the table unchanged. -/
theorem delete_forum_unconditional (items : List Item) (name : String) :
    delete_forumCore name (deleteItemResp items name) = (.ok (), []) ∧
    getItemModel (delete_forum items name) name = none ∧
    (∀ it : Item, get_forum (delete_forum items name) name ≠ .ok it) ∧
    delete_forumCore name (deleteItemResp (delete_forum items name) name) =
      (.ok (), []) ∧
    delete_forum (delete_forum items name) name = delete_forum items name := by
  refine ⟨rfl, getItemModel_delete items name, fun it hit => ?_, rfl, ?_⟩
  · simp only [delete_forum, get_forum] at hit
    rw [getItemModel_delete] at hit
    simp [get_forumCore] at hit
  · simp only [delete_forum, deleteItemModel, List.filter_filter]
    congr 1
    funext j
    exact Bool.and_self _

/-- C6: `add_forum` is an unconditional put (creates or silently overwrites
any existing record with the same key, on every starting table), and a
subsequent `get_forum` on the key returns exactly the attributes that were
put. -/
theorem add_forum_then_get_forum (items : List Item) (name : String)
    (c m t v : AttrVal) :
    get_forum (add_forum items name c m t v) name =
      .ok [("Name", AttrVal.s name), ("Category", c), ("Messages", m),
        ("Threads", t), ("Views", v)] := by
  have h : itemKey
      ([("Name", AttrVal.s name), ("Category", c), ("Messages", m),
        ("Threads", t), ("Views", v)] : Item) = some (AttrVal.s name) := by
    simp [itemKey, getAttr_cons]
  rw [get_forum, add_forum, getItemModel_put _ _ _ h]
  rfl

/-- C3: `scan_forums` issues a first request with no continuation token,
re-issues one request per returned continuation token, accumulates the
records of every page, terminates exactly with the response that carries no
token, and for a table of N distinct-keyed records split into pages in any
way returns exactly those N records (so in particular set-equality on
keys). -/
theorem scan_forums_all_pages (pages : List (List Item)) (items : List Item)
    (hjoin : pages.flatten = items)
    (_hkeys : (items.map itemKey).Nodup) :
    (scan_forums pages).1 = .ok items ∧
    (scan_forums pages).2.1 =
      none :: (List.range' 1 (pages.length - 1)).map some ∧
    (scan_forums pages).2.2 = [] ∧
    ∀ got : List Item, (scan_forums pages).1 = .ok got →
      got.length = items.length ∧
      (got.map itemKey).toFinset = (items.map itemKey).toFinset := by
  have h := scanCore_noFault pages pages.length none [] [] (by simp)
  simp only [Option.getD_none, List.drop_zero, List.nil_append, Nat.zero_add] at h
  rw [hjoin] at h
  rw [scan_forums, h]
  refine ⟨rfl, rfl, rfl, fun got hg => ?_⟩
  simp only [Except.ok.injEq] at hg
  rw [← hg]
  exact ⟨rfl, rfl⟩

/-- Witness for C3 at a two-record table split into two pages. -/
theorem scan_forums_all_pages_w :
    ([[[("Name", AttrVal.s "Amazon DynamoDB")]],
        [[("Name", AttrVal.s "SQL server")]]] : List (List Item)).flatten =
      [[("Name", AttrVal.s "Amazon DynamoDB")], [("Name", AttrVal.s "SQL server")]] ∧
    (([[("Name", AttrVal.s "Amazon DynamoDB")], [("Name", AttrVal.s "SQL server")]]
      : List Item).map itemKey).Nodup ∧
    (scan_forums [[[("Name", AttrVal.s "Amazon DynamoDB")]],
        [[("Name", AttrVal.s "SQL server")]]]).1 =
      .ok [[("Name", AttrVal.s "Amazon DynamoDB")], [("Name", AttrVal.s "SQL server")]] ∧
    (scan_forums [[[("Name", AttrVal.s "Amazon DynamoDB")]],
        [[("Name", AttrVal.s "SQL server")]]]).2.1 =
      none :: (List.range' 1 1).map some :=
  ⟨rfl, by decide,
    (scan_forums_all_pages
      [[[("Name", AttrVal.s "Amazon DynamoDB")]], [[("Name", AttrVal.s "SQL server")]]]
      [[("Name", AttrVal.s "Amazon DynamoDB")], [("Name", AttrVal.s "SQL server")]]
      rfl (by decide)).1,
    (scan_forums_all_pages
      [[[("Name", AttrVal.s "Amazon DynamoDB")]], [[("Name", AttrVal.s "SQL server")]]]
      [[("Name", AttrVal.s "Amazon DynamoDB")], [("Name", AttrVal.s "SQL server")]]
      rfl (by decide)).2.1⟩

/-- C4 counterexample: with no handle cached, probing for a table that the
service reports as not found returns false but caches nothing — the member
variable stays `None`, so no handle to the table is stored for subsequent
calls. -/
theorem exists_notfound_no_cache :
    existsCore none "Forum"
        (.error ⟨"ResourceNotFoundException", "Requested resource not found"⟩) =
      (.ok false, none, []) ∧
    (existsCore none "Forum"
        (.error ⟨"ResourceNotFoundException", "Requested resource not found"⟩)).2.1 ≠
      some "Forum" :=
  ⟨rfl, by decide⟩

/-- C4 (amended): `exists` returns false exactly on the service's
`ResourceNotFoundException`, re-raises any other error class after logging,
and caches the handle to the table only when the probe succeeds (returns
true); on the not-found and error paths the cached handle is left
unchanged. -/
theorem exists_probe_behavior (st : Option String) (tn : String)
    (e enf : ClientErr) (he : e.code ≠ "ResourceNotFoundException")
    (hnf : enf.code = "ResourceNotFoundException") :
    existsCore st tn (.ok ()) = (.ok true, some tn, []) ∧
    existsCore st tn (.error enf) = (.ok false, st, []) ∧
    existsCore st tn (.error e) =
      (.error e, st, [⟨"exists", tn, e.code, e.message⟩]) := by
  refine ⟨rfl, ?_, ?_⟩ <;> simp [existsCore, hnf, he]

/-- Witness for C4's amended theorem at concrete errors. -/
theorem exists_probe_behavior_w :
    ("InternalError" : String) ≠ "ResourceNotFoundException" ∧
    ("ResourceNotFoundException" : String) = "ResourceNotFoundException" ∧
    existsCore none "Forum" (.ok ()) = (.ok true, some "Forum", []) ∧
    existsCore none "Forum" (.error ⟨"ResourceNotFoundException", "nf"⟩) =
      (.ok false, none, []) ∧
    existsCore none "Forum" (.error ⟨"InternalError", "boom"⟩) =
      (.error ⟨"InternalError", "boom"⟩, none,
        [⟨"exists", "Forum", "InternalError", "boom"⟩]) :=
  ⟨by decide, rfl,
    (exists_probe_behavior none "Forum" ⟨"InternalError", "boom"⟩
      ⟨"ResourceNotFoundException", "nf"⟩ (by decide) rfl).1,
    (exists_probe_behavior none "Forum" ⟨"InternalError", "boom"⟩
      ⟨"ResourceNotFoundException", "nf"⟩ (by decide) rfl).2.1,
    (exists_probe_behavior none "Forum" ⟨"InternalError", "boom"⟩
      ⟨"ResourceNotFoundException", "nf"⟩ (by decide) rfl).2.2⟩

/-- C9: `delete_table` issues the drop against the currently cached handle;
when the drop succeeds the cached handle is cleared (set to no-table), and
when it is rejected the error is logged and re-raised with the handle left
in place. -/
theorem delete_table_clears_handle (t : String) (e : ClientErr) :
    delete_tableCore t (.ok ()) = (.ok (), none, []) ∧
    delete_tableCore t (.error e) =
      (.error e, some t, [⟨"delete_table", "", e.code, e.message⟩]) :=
  ⟨rfl, rfl⟩

/-- C8: whenever the service client surfaces a fault, every operation of the
Forum class logs one structured diagnostic (operation, target name, code,
message) and re-raises the error unconditionally — no recovery, retry or
fallback — with the single exception of the not-found case of `exists`,
which is swallowed into a `false` return. -/
theorem forum_ops_log_and_reraise (st : Option String) (tn name : String)
    (pages : List (List Item)) (fault : Nat → Option ClientErr) (sk : Option Nat)
    (acc : List Item) (tr : List (Option Nat)) (e enf : ClientErr)
    (he : e.code ≠ "ResourceNotFoundException")
    (hnf : enf.code = "ResourceNotFoundException")
    (hf : fault (sk.getD 0) = some e) :
    existsCore st tn (.error e) =
      (.error e, st, [⟨"exists", tn, e.code, e.message⟩]) ∧
    existsCore st tn (.error enf) = (.ok false, st, []) ∧
    create_tableCore st tn (.error e) =
      (.error e, st, [⟨"create_table", tn, e.code, e.message⟩]) ∧
    write_batchCore tn (.error e) =
      (.error e, [⟨"write_batch", tn, e.code, e.message⟩]) ∧
    get_forumCore name (.error e) =
      (.error (.client e), [⟨"get_forum", name, e.code, e.message⟩]) ∧
    scanCore pages fault sk acc tr =
      (.error e, tr ++ [sk], [⟨"scan_forums", "", e.code, e.message⟩]) ∧
    add_forumCore name (.error e) =
      (.error e, [⟨"add_forum", name, e.code, e.message⟩]) ∧
    update_forumCore name (.error e) =
      (.error e, [⟨"update_forum", name, e.code, e.message⟩]) ∧
    delete_forumCore name (.error e) =
      (.error e, [⟨"delete_forum", name, e.code, e.message⟩]) ∧
    delete_tableCore tn (.error e) =
      (.error e, some tn, [⟨"delete_table", "", e.code, e.message⟩]) := by
  refine ⟨by simp [existsCore, he], by simp [existsCore, hnf],
    rfl, rfl, rfl, ?_, rfl, rfl, rfl, rfl⟩
  rw [scanCore.eq_def]
  dsimp only
  rw [hf]

/-- Witness for C8 at concrete faults and a fault at the scan's first
request. -/
theorem forum_ops_log_and_reraise_w :
    ("InternalError" : String) ≠ "ResourceNotFoundException" ∧
    ("ResourceNotFoundException" : String) = "ResourceNotFoundException" ∧
    (fun _ : Nat => some (⟨"InternalError", "boom"⟩ : ClientErr))
        ((none : Option Nat).getD 0) = some ⟨"InternalError", "boom"⟩ ∧
    existsCore none "Forum" (.error ⟨"InternalError", "boom"⟩) =
      (.error ⟨"InternalError", "boom"⟩, none,
        [⟨"exists", "Forum", "InternalError", "boom"⟩]) ∧
    existsCore none "Forum" (.error ⟨"ResourceNotFoundException", "nf"⟩) =
      (.ok false, none, []) ∧
    create_tableCore none "Forum" (.error ⟨"InternalError", "boom"⟩) =
      (.error ⟨"InternalError", "boom"⟩, none,
        [⟨"create_table", "Forum", "InternalError", "boom"⟩]) ∧
    write_batchCore "Forum" (.error ⟨"InternalError", "boom"⟩) =
      (.error ⟨"InternalError", "boom"⟩,
        [⟨"write_batch", "Forum", "InternalError", "boom"⟩]) ∧
    get_forumCore "SQL server" (.error ⟨"InternalError", "boom"⟩) =
      (.error (.client ⟨"InternalError", "boom"⟩),
        [⟨"get_forum", "SQL server", "InternalError", "boom"⟩]) ∧
    scanCore [] (fun _ => some ⟨"InternalError", "boom"⟩) none [] [] =
      (.error ⟨"InternalError", "boom"⟩, [none],
        [⟨"scan_forums", "", "InternalError", "boom"⟩]) ∧
    add_forumCore "SQL server" (.error ⟨"InternalError", "boom"⟩) =
      (.error ⟨"InternalError", "boom"⟩,
        [⟨"add_forum", "SQL server", "InternalError", "boom"⟩]) ∧
    update_forumCore "SQL server" (.error ⟨"InternalError", "boom"⟩) =
      (.error ⟨"InternalError", "boom"⟩,
        [⟨"update_forum", "SQL server", "InternalError", "boom"⟩]) ∧
    delete_forumCore "SQL server" (.error ⟨"InternalError", "boom"⟩) =
      (.error ⟨"InternalError", "boom"⟩,
        [⟨"delete_forum", "SQL server", "InternalError", "boom"⟩]) ∧
    delete_tableCore "Forum" (.error ⟨"InternalError", "boom"⟩) =
      (.error ⟨"InternalError", "boom"⟩, some "Forum",
        [⟨"delete_table", "", "InternalError", "boom"⟩]) := by
  have h := forum_ops_log_and_reraise none "Forum" "SQL server" []
    (fun _ => some ⟨"InternalError", "boom"⟩) none [] []
    ⟨"InternalError", "boom"⟩ ⟨"ResourceNotFoundException", "nf"⟩
    (by decide) rfl rfl
  refine ⟨by decide, rfl, rfl, h.1, h.2.1, h.2.2.1, h.2.2.2.1, h.2.2.2.2.1, ?_,
    h.2.2.2.2.2.2.1, h.2.2.2.2.2.2.2.1, h.2.2.2.2.2.2.2.2.1, h.2.2.2.2.2.2.2.2.2⟩
  have h2 := h.2.2.2.2.2.1
  simpa using h2

/-- C7: `get_sample_forum_data` on a well-formed JSON array of M objects
returns M records, and numeric fields are decoded with exact precision —
the decimal literal of any natural number (such as a view count of
1000000000000) round-trips exactly, never as an approximate float. -/
theorem get_sample_forum_data_exact (doc : List RawRecord) (recs : List PyRecord)
    (h : json_load doc = some recs) :
    get_sample_forum_data (some doc) = .ok recs ∧
    recs.length = doc.length ∧
    ∀ n : Nat, decodeScalar (.num (renderNat n)) = some (.int n) := by
  refine ⟨?_, decodeAll_length _ _ _ h, decodeScalar_renderNat⟩
  rw [get_sample_forum_data, h]

/-- Witness for C7 at a one-object document holding the view count
1000000000000. -/
theorem get_sample_forum_data_exact_w :
    json_load [[("Name", .str "Amazon DynamoDB"),
        ("Views", .num (renderNat 1000000000000))]] =
      some [[("Name", .str "Amazon DynamoDB"), ("Views", .int 1000000000000)]] ∧
    get_sample_forum_data
        (some [[("Name", .str "Amazon DynamoDB"),
          ("Views", .num (renderNat 1000000000000))]]) =
      .ok [[("Name", .str "Amazon DynamoDB"), ("Views", .int 1000000000000)]] ∧
    ([[("Name", PyScalar.str "Amazon DynamoDB"),
        ("Views", PyScalar.int 1000000000000)]] : List PyRecord).length = 1 ∧
    decodeScalar (.num (renderNat 1000000000000)) = some (.int 1000000000000) :=
  ⟨by decide,
    (get_sample_forum_data_exact
      [[("Name", .str "Amazon DynamoDB"), ("Views", .num (renderNat 1000000000000))]]
      [[("Name", .str "Amazon DynamoDB"), ("Views", .int 1000000000000)]]
      (by decide)).1,
    rfl,
    (get_sample_forum_data_exact
      [[("Name", .str "Amazon DynamoDB"), ("Views", .num (renderNat 1000000000000))]]
      [[("Name", .str "Amazon DynamoDB"), ("Views", .int 1000000000000)]]
      (by decide)).2.2 1000000000000⟩
